import Mathlib

/-!
# SSD kernels of MayFlyCircleFit (src/prototypes)

Shallow embedding of the C prototypes `ssd_avx2.c`, `ssd_avx2_simple.c` and
`ssd_avx2_v2.c`.  A pixel buffer is modelled as a total function from byte
offset to stored value; reading a byte takes the value mod 256, embedding the
`uint8_t` storage type.  `width`, `height`, `stride` are naturals (the C `int`
parameters are non-negative for every valid input).  The C kernels accumulate
exact integers: `ssd_scalar` adds per-pixel integer contributions (each at most
3·255² = 195075) into a `double`, and the vectorised kernels accumulate in
`int64_t` and convert once at the end; for every supported image size the
partial sums are integers below 2^53, where `double` addition of integers is
exact, so the returned `double` values are modelled by exact integers.
SIMD 16-bit subtraction wraps mod 2^16 and the `madd` lanes are 32-bit, which
the embedding keeps (`wrap16`, `toSigned16`, `wrap32`).
-/

namespace MayFly

/-- Read one byte of a buffer: the `% 256` embeds the `uint8_t` storage type. -/
def byteAt (buf : Nat → Nat) (i : Nat) : Nat := buf i % 256

/-- `(int32_t)a[i] - (int32_t)b[i]`: signed difference of two byte reads. -/
def chanDiff (a b : Nat → Nat) (i : Nat) : Int :=
  (byteAt a i : Int) - (byteAt b i : Int)

/-- One pixel's contribution `dr*dr + dg*dg + db*db` at byte offset `i`
(R at `i`, G at `i+1`, B at `i+2`; the alpha byte at `i+3` is not read). -/
def pixelSSD (a b : Nat → Nat) (i : Nat) : Int :=
  chanDiff a b i * chanDiff a b i
    + chanDiff a b (i+1) * chanDiff a b (i+1)
    + chanDiff a b (i+2) * chanDiff a b (i+2)

/-- Scalar loop over `n` pixels `xStart, xStart+1, …, xStart+n-1` of the row
starting at byte offset `rowStart`: pixel `x` sits at `rowStart + x*4`. -/
def pixRange (a b : Nat → Nat) (rowStart xStart : Nat) : Nat → Int
  | 0 => 0
  | n+1 => pixRange a b rowStart xStart n + pixelSSD a b (rowStart + (xStart + n) * 4)

/-- `ssd_scalar` (identical in all three prototype files): row-major double
loop, row `y` starting at byte offset `y*stride`, accumulating
`dr*dr + dg*dg + db*db` per pixel. -/
def ssd_scalar (a b : Nat → Nat) (stride width : Nat) : Nat → Int
  | 0 => 0
  | h+1 => ssd_scalar a b stride width h + pixRange a b (h * stride) 0 width

/-! ## SIMD primitives -/

/-- `_mm256_sub_epi16` on zero-extended bytes: 16-bit wrapping subtraction,
result as the unsigned 16-bit word that the register holds. -/
def wrap16 (z : Int) : Nat := (z % 65536).toNat

/-- Reinterpret an unsigned 16-bit word as the signed value `madd` multiplies. -/
def toSigned16 (w : Nat) : Int := if w < 32768 then (w : Int) else (w : Int) - 65536

/-- Wrap an integer into a signed 32-bit lane. -/
def wrap32 (z : Int) : Int := (z + 2^31) % 2^32 - 2^31

/-- One 32-bit lane of `_mm256_madd_epi16(diff, diff)` where `diff` is the
16-bit wrapping difference of the zero-extended bytes at offsets `i` and
`i+1`: `sext16(diff_i)² + sext16(diff_{i+1})²`, wrapped to 32 bits. -/
def maddLane (a b : Nat → Nat) (i : Nat) : Int :=
  wrap32 (toSigned16 (wrap16 ((byteAt a i : Int) - (byteAt b i : Int)))
            * toSigned16 (wrap16 ((byteAt a i : Int) - (byteAt b i : Int)))
          + toSigned16 (wrap16 ((byteAt a (i+1) : Int) - (byteAt b (i+1) : Int)))
            * toSigned16 (wrap16 ((byteAt a (i+1) : Int) - (byteAt b (i+1) : Int))))

/-- Sum of the first `k` `madd` lanes of a 32-byte block at offset `i`.  Both
the `unpacklo/unpackhi` layout of `ssd_avx2` and the `cvtepu8_epi16` layout of
`ssd_avx2_simple` produce, between `sq_lo_arr` and `sq_hi_arr`, exactly the 16
lanes covering the adjacent byte pairs `(i,i+1), (i+2,i+3), …, (i+30,i+31)`;
`blockMaddSum a b i 16` is the sum of all 16 of them. -/
def blockMaddSum (a b : Nat → Nat) (i : Nat) : Nat → Int
  | 0 => 0
  | k+1 => blockMaddSum a b i k + maddLane a b (i + 2*k)

/-- The corrective per-pixel RGB sum `pixel_sum` computed inside the SIMD block
of `ssd_avx2` (lines 133–141): the first `p` of the 8 pixels of the block at
byte offset `i`, each read back from the stored register bytes. -/
def blockPixelSum (a b : Nat → Nat) (i : Nat) : Nat → Int
  | 0 => 0
  | p+1 => blockPixelSum a b i p + pixelSSD a b (i + p*4)

/-- One 8-pixel SIMD block of `ssd_avx2` (lines 77–149): all 16 `madd` lanes
are first added to `total_sum`, then `pixel_sum` is added and the same 16 lane
values subtracted again. -/
def avx2Block (a b : Nat → Nat) (i : Nat) : Int :=
  blockMaddSum a b i 16 + blockPixelSum a b i 8 - blockMaddSum a b i 16

/-- The SIMD loop of one row of `ssd_avx2`: the first `n` blocks, block `k`
covering pixels `8k … 8k+7` at byte offset `rowStart + (8k)*4`. -/
def avx2Blocks (a b : Nat → Nat) (rowStart : Nat) : Nat → Int
  | 0 => 0
  | n+1 => avx2Blocks a b rowStart n + avx2Block a b (rowStart + n*8*4)

/-- One full row of `ssd_avx2`: `width / 8` SIMD blocks
(`simd_width = (width/8)*8`), then the scalar remainder loop from
`x = simd_width` to `width - 1`. -/
def avx2Row (a b : Nat → Nat) (rowStart width : Nat) : Int :=
  avx2Blocks a b rowStart (width / 8)
    + pixRange a b rowStart (width / 8 * 8) (width % 8)

/-- `ssd_avx2` (ssd_avx2.c lines 66–162): `int64_t` accumulation over rows,
returned as a `double` (exact for all supported sizes). -/
def ssd_avx2 (a b : Nat → Nat) (stride width : Nat) : Nat → Int
  | 0 => 0
  | h+1 => ssd_avx2 a b stride width h + avx2Row a b (h * stride) width

/-! ## ssd_avx2_simple -/

/-- Alpha correction of `ssd_avx2_simple` (lines 110–114): for each of the
first `p` pixels of the block at offset `i`, the squared alpha difference
`da*da` read at offset `i + p*4 + 3`. -/
def alphaSqSum (a b : Nat → Nat) (i : Nat) : Nat → Int
  | 0 => 0
  | p+1 => alphaSqSum a b i p
      + chanDiff a b (i + p*4 + 3) * chanDiff a b (i + p*4 + 3)

/-- One 8-pixel SIMD block of `ssd_avx2_simple` (lines 52–117): `pixel_sum` is
the sum of all 16 `madd` lanes (which include each pixel's alpha square) minus
the recomputed alpha squares of the 8 pixels. -/
def simpleBlock (a b : Nat → Nat) (i : Nat) : Int :=
  blockMaddSum a b i 16 - alphaSqSum a b i 8

/-- The SIMD loop of one row of `ssd_avx2_simple`: `for (; x <= width - 8; x += 8)`
executes `width / 8` iterations. -/
def simpleBlocks (a b : Nat → Nat) (rowStart : Nat) : Nat → Int
  | 0 => 0
  | n+1 => simpleBlocks a b rowStart n + simpleBlock a b (rowStart + n*8*4)

/-- One full row of `ssd_avx2_simple`: SIMD blocks then scalar remainder. -/
def simpleRow (a b : Nat → Nat) (rowStart width : Nat) : Int :=
  simpleBlocks a b rowStart (width / 8)
    + pixRange a b rowStart (width / 8 * 8) (width % 8)

/-- `ssd_avx2_simple` (ssd_avx2_simple.c lines 44–130). -/
def ssd_avx2_simple (a b : Nat → Nat) (stride width : Nat) : Nat → Int
  | 0 => 0
  | h+1 => ssd_avx2_simple a b stride width h + simpleRow a b (h * stride) width

/-! ## ssd_avx2_v2

`ssd_avx2_v2` keeps a `__m256i acc` of eight 32-bit lanes.  Every update adds a
broadcast vector (`_mm256_set1_epi32(pixel_sum)` for a SIMD block,
`_mm256_set1_epi32(dr*dr+dg*dg+db*db)` per remainder pixel), so all eight lanes
always hold the same value; the accumulator is therefore modelled by that
common lane value, and the final horizontal sum over the eight lanes is eight
times it. -/

/-- The 8 `madd` lanes `sq_lo_arr[2p]`, `sq_hi_arr[2p]` of a block of
`ssd_avx2_v2` hold `R²+G²` of pixel `p` (`cvtepu8_epi16` layout: lane `j` of
`sq_lo`/`sq_hi` covers block bytes `2j, 2j+1` / `16+2j, 17+2j`): the sum over
the first `p` pixels of the lane at block byte `p*4`. -/
def v2RgSum (a b : Nat → Nat) (i : Nat) : Nat → Int
  | 0 => 0
  | p+1 => v2RgSum a b i p + maddLane a b (i + p*4)

/-- Sum of the recomputed `db*db` terms of the first `p` pixels of the block
(ssd_avx2_v2.c lines 105–109). -/
def v2BlueSum (a b : Nat → Nat) (i : Nat) : Nat → Int
  | 0 => 0
  | p+1 => v2BlueSum a b i p
      + chanDiff a b (i + p*4 + 2) * chanDiff a b (i + p*4 + 2)

/-- `pixel_sum` of one 8-pixel block of `ssd_avx2_v2` (lines 98–109): the sum
of the `R²+G²` madd lanes and the recomputed `B²` terms of the 8 pixels. -/
def v2BlockPixelSum (a b : Nat → Nat) (i : Nat) : Int :=
  v2RgSum a b i 8 + v2BlueSum a b i 8

/-- The SIMD loop of one row of `ssd_avx2_v2` acting on one accumulator lane:
each of the first `n` blocks adds its `pixel_sum` to the lane
(`_mm256_add_epi32` wraps at 32 bits). -/
def v2BlocksAcc (a b : Nat → Nat) (rowStart : Nat) (acc : Int) : Nat → Int
  | 0 => acc
  | n+1 => wrap32 (v2BlocksAcc a b rowStart acc n
      + v2BlockPixelSum a b (rowStart + n*8*4))

/-- The remainder loop of one row of `ssd_avx2_v2` acting on one accumulator
lane: each of the `k` pixels from `xStart` adds `dr*dr+dg*dg+db*db`. -/
def v2RemAcc (a b : Nat → Nat) (rowStart xStart : Nat) (acc : Int) : Nat → Int
  | 0 => acc
  | k+1 => wrap32 (v2RemAcc a b rowStart xStart acc k
      + pixelSSD a b (rowStart + (xStart + k) * 4))

/-- The row loop of `ssd_avx2_v2` acting on one accumulator lane. -/
def v2Rows (a b : Nat → Nat) (stride width : Nat) (acc : Int) : Nat → Int
  | 0 => acc
  | h+1 => v2RemAcc a b (h * stride) (width / 8 * 8)
      (v2BlocksAcc a b (h * stride) (v2Rows a b stride width acc h) (width / 8))
      (width % 8)

/-- `ssd_avx2_v2` (ssd_avx2_v2.c lines 57–136): rows accumulate into the eight
identical lanes of `acc` starting from zero, and the function returns the
horizontal `int64_t` sum of the eight lanes as a `double`. -/
def ssd_avx2_v2 (a b : Nat → Nat) (stride width height : Nat) : Int :=
  8 * v2Rows a b stride width 0 height

/-! ## Spec-side definition and auxiliary inputs -/

/-- The specification's postcondition, written from the spec's words:
"returns Σ(dr²+dg²+db²) over all `width*height` pixels, alpha excluded",
pixel `x` of row `y` at byte offset `y*stride + x*4`. -/
def ssdSpecSum (a b : Nat → Nat) (stride width height : Nat) : Int :=
  ∑ y ∈ Finset.range height, ∑ x ∈ Finset.range width,
    (((byteAt a (y*stride + x*4) : Int) - (byteAt b (y*stride + x*4) : Int))^2
      + ((byteAt a (y*stride + x*4 + 1) : Int) - (byteAt b (y*stride + x*4 + 1) : Int))^2
      + ((byteAt a (y*stride + x*4 + 2) : Int) - (byteAt b (y*stride + x*4 + 2) : Int))^2)

/-- Advance a buffer pointer by `off` bytes (`a + off` in C). -/
def shiftBuf (buf : Nat → Nat) (off : Nat) : Nat → Nat := fun i => buf (off + i)

/-- The all-zero image of the spec's 8×1 scenario. -/
def zeroBuf : Nat → Nat := fun _ => 0

/-- The all-(10,20,30,255) RGBA image of the spec's 8×1 scenario. -/
def patBuf : Nat → Nat := fun i =>
  if i % 4 = 0 then 10 else if i % 4 = 1 then 20 else if i % 4 = 2 then 30 else 255

/-- An image with every byte 255. -/
def maxBuf : Nat → Nat := fun _ => 255

/-- `zeroBuf` with the alpha byte of pixel 0 of row 0 (offset 3) changed to 9. -/
def alphaTweakBuf : Nat → Nat := fun i => if i = 3 then 9 else 0

/-- `zeroBuf` with one row-padding byte (offset 5, which lies beyond the
`width*4 = 4` pixel bytes of row 0 in a `stride = 8`, `width = 1` geometry)
changed to 17. -/
def padTweakBuf : Nat → Nat := fun i => if i = 5 then 17 else 0

/-! ## Basic facts about byte reads and the SIMD primitives -/

lemma byteAt_lt (buf : Nat → Nat) (i : Nat) : byteAt buf i < 256 :=
  Nat.mod_lt _ (by norm_num)

lemma chanDiff_le (a b : Nat → Nat) (i : Nat) : chanDiff a b i ≤ 255 := by
  have h1 := byteAt_lt a i
  have h2 := byteAt_lt b i
  unfold chanDiff
  omega

lemma neg_le_chanDiff (a b : Nat → Nat) (i : Nat) : -255 ≤ chanDiff a b i := by
  have h1 := byteAt_lt a i
  have h2 := byteAt_lt b i
  unfold chanDiff
  omega

/-- 16-bit wrapping subtraction of two bytes, reinterpreted signed, recovers
the exact difference. -/
lemma toSigned16_wrap16_sub {x y : Nat} (hx : x < 256) (hy : y < 256) :
    toSigned16 (wrap16 ((x : Int) - y)) = (x : Int) - y := by
  unfold toSigned16 wrap16
  split <;> omega

lemma sq16_eq (a b : Nat → Nat) (i : Nat) :
    toSigned16 (wrap16 ((byteAt a i : Int) - (byteAt b i : Int))) = chanDiff a b i :=
  toSigned16_wrap16_sub (byteAt_lt a i) (byteAt_lt b i)

lemma wrap32_id {z : Int} (h1 : -2147483648 ≤ z) (h2 : z < 2147483648) :
    wrap32 z = z := by
  unfold wrap32
  norm_num
  omega

/-- A `madd` lane on byte differences computes the exact sum of the two
squared channel differences: no 16-bit or 32-bit wrap occurs. -/
lemma maddLane_eq (a b : Nat → Nat) (i : Nat) :
    maddLane a b i = chanDiff a b i * chanDiff a b i
      + chanDiff a b (i+1) * chanDiff a b (i+1) := by
  unfold maddLane
  rw [sq16_eq a b i, sq16_eq a b (i+1)]
  apply wrap32_id
  · nlinarith [neg_le_chanDiff a b i, chanDiff_le a b i,
      neg_le_chanDiff a b (i+1), chanDiff_le a b (i+1),
      mul_self_nonneg (chanDiff a b i), mul_self_nonneg (chanDiff a b (i+1))]
  · nlinarith [neg_le_chanDiff a b i, chanDiff_le a b i,
      neg_le_chanDiff a b (i+1), chanDiff_le a b (i+1)]

/-! ## SIMD block = scalar pixels -/

/-- The 16 `madd` lanes of a block cover all 32 bytes: their sum is the
8 pixels' RGB contribution plus the 8 squared alpha differences. -/
lemma blockMaddSum_16 (a b : Nat → Nat) (i : Nat) :
    blockMaddSum a b i 16 = blockPixelSum a b i 8 + alphaSqSum a b i 8 := by
  simp only [blockMaddSum, blockPixelSum, alphaSqSum, pixelSSD, maddLane_eq]
  ring_nf

/-- The cancellation inside a SIMD block of `ssd_avx2`: the `madd` total is
added and subtracted again, leaving the corrective per-pixel RGB sum. -/
lemma avx2Block_eq (a b : Nat → Nat) (i : Nat) :
    avx2Block a b i = blockPixelSum a b i 8 := by
  unfold avx2Block
  ring

/-- A SIMD block of `ssd_avx2_simple`: full madd total minus the recomputed
alpha squares equals the RGB-only pixel sum. -/
lemma simpleBlock_eq (a b : Nat → Nat) (i : Nat) :
    simpleBlock a b i = blockPixelSum a b i 8 := by
  unfold simpleBlock
  rw [blockMaddSum_16]
  ring

lemma pixRange_append (a b : Nat → Nat) (r x m n : Nat) :
    pixRange a b r x (m + n) = pixRange a b r x m + pixRange a b r (x + m) n := by
  induction n with
  | zero => simp [pixRange]
  | succ n ih =>
    rw [show m + (n + 1) = (m + n) + 1 from rfl]
    simp only [pixRange]
    rw [ih, show x + (m + n) = x + m + n by ring]
    ring

lemma blockPixelSum_eq (a b : Nat → Nat) (r x p : Nat) :
    blockPixelSum a b (r + x * 4) p = pixRange a b r x p := by
  induction p with
  | zero => simp [blockPixelSum, pixRange]
  | succ p ih =>
    simp only [blockPixelSum, pixRange, ih]
    rw [show r + x * 4 + p * 4 = r + (x + p) * 4 by ring]

lemma avx2Blocks_eq (a b : Nat → Nat) (r n : Nat) :
    avx2Blocks a b r n = pixRange a b r 0 (n * 8) := by
  induction n with
  | zero => simp [avx2Blocks, pixRange]
  | succ n ih =>
    simp only [avx2Blocks, avx2Block_eq, ih]
    rw [blockPixelSum_eq a b r (n * 8) 8,
      show (n + 1) * 8 = n * 8 + 8 by ring,
      pixRange_append a b r 0 (n * 8) 8, Nat.zero_add]

lemma simpleBlocks_eq (a b : Nat → Nat) (r n : Nat) :
    simpleBlocks a b r n = pixRange a b r 0 (n * 8) := by
  induction n with
  | zero => simp [simpleBlocks, pixRange]
  | succ n ih =>
    simp only [simpleBlocks, simpleBlock_eq, ih]
    rw [blockPixelSum_eq a b r (n * 8) 8,
      show (n + 1) * 8 = n * 8 + 8 by ring,
      pixRange_append a b r 0 (n * 8) 8, Nat.zero_add]

lemma avx2Row_eq (a b : Nat → Nat) (r w : Nat) :
    avx2Row a b r w = pixRange a b r 0 w := by
  unfold avx2Row
  rw [avx2Blocks_eq]
  have h := pixRange_append a b r 0 (w / 8 * 8) (w % 8)
  rw [Nat.zero_add] at h
  rw [← h]
  congr 1
  omega

lemma simpleRow_eq (a b : Nat → Nat) (r w : Nat) :
    simpleRow a b r w = pixRange a b r 0 w := by
  unfold simpleRow
  rw [simpleBlocks_eq]
  have h := pixRange_append a b r 0 (w / 8 * 8) (w % 8)
  rw [Nat.zero_add] at h
  rw [← h]
  congr 1
  omega

/-! ## Kernel-level equivalences -/

lemma avx2_eq_scalar (a b : Nat → Nat) (stride width : Nat) :
    ∀ height, ssd_avx2 a b stride width height = ssd_scalar a b stride width height
  | 0 => rfl
  | h+1 => by
    simp only [ssd_avx2, ssd_scalar, avx2Row_eq, avx2_eq_scalar a b stride width h]

lemma simple_eq_scalar (a b : Nat → Nat) (stride width : Nat) :
    ∀ height, ssd_avx2_simple a b stride width height = ssd_scalar a b stride width height
  | 0 => rfl
  | h+1 => by
    simp only [ssd_avx2_simple, ssd_scalar, simpleRow_eq, simple_eq_scalar a b stride width h]

/-! ## The scalar kernel meets the spec's summation formula -/

lemma pixelSSD_eq_spec_term (a b : Nat → Nat) (j : Nat) :
    pixelSSD a b j =
      ((byteAt a j : Int) - (byteAt b j : Int)) ^ 2
        + ((byteAt a (j+1) : Int) - (byteAt b (j+1) : Int)) ^ 2
        + ((byteAt a (j+2) : Int) - (byteAt b (j+2) : Int)) ^ 2 := by
  simp only [pixelSSD, chanDiff]
  ring

lemma pixRange_eq_sum (a b : Nat → Nat) (r w : Nat) :
    pixRange a b r 0 w = ∑ x ∈ Finset.range w, pixelSSD a b (r + x * 4) := by
  induction w with
  | zero => simp [pixRange]
  | succ w ih =>
    rw [Finset.sum_range_succ, ← ih]
    simp [pixRange]

lemma scalar_eq_spec (a b : Nat → Nat) (stride width : Nat) :
    ∀ height, ssd_scalar a b stride width height = ssdSpecSum a b stride width height
  | 0 => by simp [ssd_scalar, ssdSpecSum]
  | h+1 => by
    rw [show ssd_scalar a b stride width (h+1)
        = ssd_scalar a b stride width h + pixRange a b (h * stride) 0 width from rfl,
      scalar_eq_spec a b stride width h]
    unfold ssdSpecSum
    rw [Finset.sum_range_succ, pixRange_eq_sum]
    congr 1
    refine Finset.sum_congr rfl fun x _ => ?_
    rw [pixelSSD_eq_spec_term]

/-! ## Nonnegativity and the zero characterisation -/

lemma pixelSSD_nonneg (a b : Nat → Nat) (i : Nat) : 0 ≤ pixelSSD a b i := by
  have h0 := mul_self_nonneg (chanDiff a b i)
  have h1 := mul_self_nonneg (chanDiff a b (i+1))
  have h2 := mul_self_nonneg (chanDiff a b (i+2))
  unfold pixelSSD
  linarith

lemma pixRange_nonneg (a b : Nat → Nat) (r x : Nat) :
    ∀ n, 0 ≤ pixRange a b r x n
  | 0 => le_refl 0
  | n+1 => by
    have h1 := pixRange_nonneg a b r x n
    have h2 := pixelSSD_nonneg a b (r + (x + n) * 4)
    simp only [pixRange]
    linarith

lemma ssd_scalar_nonneg (a b : Nat → Nat) (stride width : Nat) :
    ∀ height, 0 ≤ ssd_scalar a b stride width height
  | 0 => le_refl 0
  | h+1 => by
    have h1 := ssd_scalar_nonneg a b stride width h
    have h2 := pixRange_nonneg a b (h * stride) 0 width
    simp only [ssd_scalar]
    linarith

lemma pixelSSD_eq_zero_iff (a b : Nat → Nat) (i : Nat) :
    pixelSSD a b i = 0 ↔ ∀ c, c < 3 → byteAt a (i + c) = byteAt b (i + c) := by
  constructor
  · intro h c hc
    have h0 := mul_self_nonneg (chanDiff a b i)
    have h1 := mul_self_nonneg (chanDiff a b (i+1))
    have h2 := mul_self_nonneg (chanDiff a b (i+2))
    unfold pixelSSD at h
    have e0 : chanDiff a b i = 0 := by
      have : chanDiff a b i * chanDiff a b i = 0 := by linarith
      exact mul_self_eq_zero.mp this
    have e1 : chanDiff a b (i+1) = 0 := by
      have : chanDiff a b (i+1) * chanDiff a b (i+1) = 0 := by linarith
      exact mul_self_eq_zero.mp this
    have e2 : chanDiff a b (i+2) = 0 := by
      have : chanDiff a b (i+2) * chanDiff a b (i+2) = 0 := by linarith
      exact mul_self_eq_zero.mp this
    unfold chanDiff at e0 e1 e2
    interval_cases c
    · simp only [Nat.add_zero]
      omega
    · omega
    · omega
  · intro h
    have e0 : chanDiff a b i = 0 := by
      have := h 0 (by norm_num)
      simp only [Nat.add_zero] at this
      unfold chanDiff
      omega
    have e1 : chanDiff a b (i+1) = 0 := by
      have := h 1 (by norm_num)
      unfold chanDiff
      omega
    have e2 : chanDiff a b (i+2) = 0 := by
      have := h 2 (by norm_num)
      unfold chanDiff
      omega
    unfold pixelSSD
    rw [e0, e1, e2]
    ring

lemma pixRange_eq_zero_iff (a b : Nat → Nat) (r : Nat) :
    ∀ w, pixRange a b r 0 w = 0 ↔ ∀ x, x < w → pixelSSD a b (r + x * 4) = 0
  | 0 => by simp [pixRange]
  | w+1 => by
    simp only [pixRange]
    constructor
    · intro h x hx
      have hn := pixRange_nonneg a b r 0 w
      have hp := pixelSSD_nonneg a b (r + (0 + w) * 4)
      have h1 : pixRange a b r 0 w = 0 := by linarith
      have h2 : pixelSSD a b (r + (0 + w) * 4) = 0 := by linarith
      rcases Nat.lt_succ_iff_lt_or_eq.mp hx with h' | h'
      · exact ((pixRange_eq_zero_iff a b r w).mp h1) x h'
      · subst h'
        simpa using h2
    · intro h
      rw [(pixRange_eq_zero_iff a b r w).mpr fun x hx => h x (Nat.lt_succ_of_lt hx)]
      have := h w (Nat.lt_succ_self w)
      simpa using this

lemma ssd_scalar_eq_zero_iff (a b : Nat → Nat) (stride width : Nat) :
    ∀ height, ssd_scalar a b stride width height = 0 ↔
      ∀ y, y < height → pixRange a b (y * stride) 0 width = 0
  | 0 => by simp [ssd_scalar]
  | h+1 => by
    simp only [ssd_scalar]
    constructor
    · intro hz y hy
      have hn := ssd_scalar_nonneg a b stride width h
      have hp := pixRange_nonneg a b (h * stride) 0 width
      have h1 : ssd_scalar a b stride width h = 0 := by linarith
      have h2 : pixRange a b (h * stride) 0 width = 0 := by linarith
      rcases Nat.lt_succ_iff_lt_or_eq.mp hy with h' | h'
      · exact ((ssd_scalar_eq_zero_iff a b stride width h).mp h1) y h'
      · subst h'
        exact h2
    · intro hz
      rw [(ssd_scalar_eq_zero_iff a b stride width h).mpr
          fun y hy => hz y (Nat.lt_succ_of_lt hy),
        hz h (Nat.lt_succ_self h)]
      ring

/-! ## Congruence: the scalar kernel reads only the RGB bytes of the pixels -/

lemma pixelSSD_congr {a a' b b' : Nat → Nat} {i : Nat}
    (ha : ∀ c, c < 3 → byteAt a (i + c) = byteAt a' (i + c))
    (hb : ∀ c, c < 3 → byteAt b (i + c) = byteAt b' (i + c)) :
    pixelSSD a b i = pixelSSD a' b' i := by
  have a0 := ha 0 (by norm_num)
  have a1 := ha 1 (by norm_num)
  have a2 := ha 2 (by norm_num)
  have b0 := hb 0 (by norm_num)
  have b1 := hb 1 (by norm_num)
  have b2 := hb 2 (by norm_num)
  simp only [Nat.add_zero] at a0 b0
  unfold pixelSSD chanDiff
  rw [a0, a1, a2, b0, b1, b2]

lemma pixRange_congr {a a' b b' : Nat → Nat} {r : Nat} :
    ∀ w, (∀ x, x < w → ∀ c, c < 3 →
        byteAt a (r + x * 4 + c) = byteAt a' (r + x * 4 + c)) →
      (∀ x, x < w → ∀ c, c < 3 →
        byteAt b (r + x * 4 + c) = byteAt b' (r + x * 4 + c)) →
      pixRange a b r 0 w = pixRange a' b' r 0 w
  | 0, _, _ => rfl
  | w+1, ha, hb => by
    simp only [pixRange, Nat.zero_add]
    rw [pixRange_congr w (fun x hx => ha x (Nat.lt_succ_of_lt hx))
        (fun x hx => hb x (Nat.lt_succ_of_lt hx)),
      pixelSSD_congr (ha w (Nat.lt_succ_self w)) (hb w (Nat.lt_succ_self w))]

lemma ssd_scalar_congr {a a' b b' : Nat → Nat} {stride width : Nat} :
    ∀ height, (∀ y, y < height → ∀ x, x < width → ∀ c, c < 3 →
        byteAt a (y * stride + x * 4 + c) = byteAt a' (y * stride + x * 4 + c)) →
      (∀ y, y < height → ∀ x, x < width → ∀ c, c < 3 →
        byteAt b (y * stride + x * 4 + c) = byteAt b' (y * stride + x * 4 + c)) →
      ssd_scalar a b stride width height = ssd_scalar a' b' stride width height
  | 0, _, _ => rfl
  | h+1, ha, hb => by
    simp only [ssd_scalar]
    rw [ssd_scalar_congr h (fun y hy => ha y (Nat.lt_succ_of_lt hy))
        (fun y hy => hb y (Nat.lt_succ_of_lt hy)),
      pixRange_congr width (ha h (Nat.lt_succ_self h)) (hb h (Nat.lt_succ_self h))]

/-- With `width*4 ≤ stride`, an RGB byte offset of one pixel never coincides
with the alpha byte offset of any pixel: rows occupy disjoint offset ranges
and, within a row, the offsets differ mod 4. -/
lemma rgb_ne_alpha {stride w : Nat} (hstride : w * 4 ≤ stride)
    {y y' x x' c : Nat} (hx : x < w) (hx' : x' < w) (hc : c < 3) :
    y * stride + x * 4 + c ≠ y' * stride + x' * 4 + 3 := by
  intro heq
  rcases Nat.lt_trichotomy y y' with h | h | h
  · have h1 : (y + 1) * stride ≤ y' * stride := Nat.mul_le_mul_right _ h
    rw [Nat.add_mul, Nat.one_mul] at h1
    omega
  · subst h
    omega
  · have h1 : (y' + 1) * stride ≤ y * stride := Nat.mul_le_mul_right _ h
    rw [Nat.add_mul, Nat.one_mul] at h1
    omega

/-- With `width*4 ≤ stride`, the RGB byte offsets the scalar kernel reads all
have in-row offset (`i % stride`) below `width*4`: they are never padding. -/
lemma rgb_offset_mod {stride w : Nat} (hstride : w * 4 ≤ stride)
    {y x c : Nat} (hx : x < w) (hc : c < 3) :
    (y * stride + x * 4 + c) % stride = x * 4 + c := by
  have hlt : x * 4 + c < stride := by omega
  rw [Nat.add_assoc, Nat.add_comm (y * stride), Nat.add_mul_mod_self_right,
    Nat.mod_eq_of_lt hlt]

/-! ## Row tiling -/

lemma pixelSSD_shift (a b : Nat → Nat) (o i : Nat) :
    pixelSSD (shiftBuf a o) (shiftBuf b o) i = pixelSSD a b (o + i) := by
  unfold pixelSSD chanDiff byteAt shiftBuf
  rw [show o + (i+1) = o + i + 1 by ring, show o + (i+2) = o + i + 2 by ring]

lemma pixRange_shift (a b : Nat → Nat) (o r x : Nat) :
    ∀ n, pixRange (shiftBuf a o) (shiftBuf b o) r x n = pixRange a b (o + r) x n
  | 0 => rfl
  | n+1 => by
    simp only [pixRange]
    rw [pixRange_shift a b o r x n, pixelSSD_shift,
      show o + (r + (x + n) * 4) = o + r + (x + n) * 4 by ring]

lemma ssd_scalar_tiling (a b : Nat → Nat) (stride w h1 : Nat) :
    ∀ h2, ssd_scalar a b stride w h1
        + ssd_scalar (shiftBuf a (h1 * stride)) (shiftBuf b (h1 * stride)) stride w h2
      = ssd_scalar a b stride w (h1 + h2)
  | 0 => by simp [ssd_scalar]
  | h2+1 => by
    rw [show h1 + (h2 + 1) = (h1 + h2) + 1 from rfl]
    simp only [ssd_scalar]
    rw [← ssd_scalar_tiling a b stride w h1 h2, pixRange_shift,
      show h1 * stride + h2 * stride = (h1 + h2) * stride by ring]
    ring

/-! ## Identity `ssd(A, A) = 0` -/

lemma chanDiff_self (a : Nat → Nat) (i : Nat) : chanDiff a a i = 0 := by
  unfold chanDiff
  ring

lemma pixelSSD_self (a : Nat → Nat) (i : Nat) : pixelSSD a a i = 0 := by
  unfold pixelSSD
  rw [chanDiff_self, chanDiff_self, chanDiff_self]
  ring

lemma pixRange_self (a : Nat → Nat) (r x : Nat) : ∀ n, pixRange a a r x n = 0
  | 0 => rfl
  | n+1 => by
    simp only [pixRange]
    rw [pixRange_self a r x n, pixelSSD_self]
    ring

lemma ssd_scalar_self (a : Nat → Nat) (stride width : Nat) :
    ∀ height, ssd_scalar a a stride width height = 0
  | 0 => rfl
  | h+1 => by
    simp only [ssd_scalar]
    rw [ssd_scalar_self a stride width h, pixRange_self]
    ring

lemma maddLane_self (a : Nat → Nat) (i : Nat) : maddLane a a i = 0 := by
  rw [maddLane_eq, chanDiff_self, chanDiff_self]
  ring

lemma v2RgSum_self (a : Nat → Nat) (i : Nat) : ∀ p, v2RgSum a a i p = 0
  | 0 => rfl
  | p+1 => by
    simp only [v2RgSum]
    rw [v2RgSum_self a i p, maddLane_self]
    ring

lemma v2BlueSum_self (a : Nat → Nat) (i : Nat) : ∀ p, v2BlueSum a a i p = 0
  | 0 => rfl
  | p+1 => by
    simp only [v2BlueSum]
    rw [v2BlueSum_self a i p, chanDiff_self]
    ring

lemma v2BlockPixelSum_self (a : Nat → Nat) (i : Nat) : v2BlockPixelSum a a i = 0 := by
  unfold v2BlockPixelSum
  rw [v2RgSum_self, v2BlueSum_self]
  ring

lemma wrap32_zero : wrap32 0 = 0 :=
  wrap32_id (by norm_num) (by norm_num)

lemma v2BlocksAcc_self (a : Nat → Nat) (r : Nat) : ∀ n, v2BlocksAcc a a r 0 n = 0
  | 0 => rfl
  | n+1 => by
    simp only [v2BlocksAcc]
    rw [v2BlocksAcc_self a r n, v2BlockPixelSum_self]
    simpa using wrap32_zero

lemma v2RemAcc_self (a : Nat → Nat) (r x : Nat) : ∀ n, v2RemAcc a a r x 0 n = 0
  | 0 => rfl
  | n+1 => by
    simp only [v2RemAcc]
    rw [v2RemAcc_self a r x n, pixelSSD_self]
    simpa using wrap32_zero

lemma v2Rows_self (a : Nat → Nat) (stride width : Nat) :
    ∀ height, v2Rows a a stride width 0 height = 0
  | 0 => rfl
  | h+1 => by
    simp only [v2Rows]
    rw [v2Rows_self a stride width h, v2BlocksAcc_self, v2RemAcc_self]

/-! ## Claim theorems -/

/-- Claim C1: for every input (hence in particular every valid input), the
vectorised kernels `ssd_avx2` and `ssd_avx2_simple` return a value exactly
equal to the scalar reference kernel `ssd_scalar` on the same input. -/
theorem avx2_kernels_bit_exact (a b : Nat → Nat) (stride width height : Nat) :
    ssd_avx2 a b stride width height = ssd_scalar a b stride width height ∧
      ssd_avx2_simple a b stride width height = ssd_scalar a b stride width height :=
  ⟨avx2_eq_scalar a b stride width height, simple_eq_scalar a b stride width height⟩

/-- Claim C2: `ssd_scalar` returns exactly the sum over all `width*height`
pixels (pixel `x` of row `y` at byte offset `y*stride + x*4`) of
`dr²+dg²+db²`, the squared signed differences of the R, G, B byte samples;
the alpha byte contributes nothing (it is never read). -/
theorem scalar_meets_spec_sum (a b : Nat → Nat) (stride width height : Nat) :
    ssd_scalar a b stride width height = ssdSpecSum a b stride width height :=
  scalar_eq_spec a b stride width height

/-- Claim C3 (code bug): on the spec's own 8×1 scenario (image A all zero,
image B all (10,20,30,255), stride 32), `ssd_avx2_v2` does not equal
`ssd_scalar`: every accumulator update adds a broadcast
(`_mm256_set1_epi32(pixel_sum)`) into all eight 32-bit lanes and the final
horizontal sum adds all eight lanes, so the kernel returns 8 × 11200 = 89600
while the scalar kernel returns 11200. -/
theorem v2_not_equal_scalar :
    ssd_avx2_v2 zeroBuf patBuf 32 8 1 ≠ ssd_scalar zeroBuf patBuf 32 8 1 ∧
      ssd_avx2_v2 zeroBuf patBuf 32 8 1 = 89600 ∧
      ssd_scalar zeroBuf patBuf 32 8 1 = 11200 := by
  decide

/-- Claim C4: alpha invariance as a two-run noninterference statement.  If
`a, a'` agree on every byte that is not the alpha byte of some pixel
(offset `y*stride + x*4 + 3`, `y < height`, `x < width`), and likewise
`b, b'`, then `ssd_scalar` and `ssd_avx2` return identical values on
`(a, b)` and `(a', b')`; `width*4 ≤ stride` is the validity precondition. -/
theorem alpha_noninterference (a a' b b' : Nat → Nat) (stride width height : Nat)
    (hstride : width * 4 ≤ stride)
    (ha : ∀ i, (∀ y, y < height → ∀ x, x < width → i ≠ y * stride + x * 4 + 3) →
      byteAt a i = byteAt a' i)
    (hb : ∀ i, (∀ y, y < height → ∀ x, x < width → i ≠ y * stride + x * 4 + 3) →
      byteAt b i = byteAt b' i) :
    ssd_scalar a b stride width height = ssd_scalar a' b' stride width height ∧
      ssd_avx2 a b stride width height = ssd_avx2 a' b' stride width height := by
  have ka : ∀ y, y < height → ∀ x, x < width → ∀ c, c < 3 →
      byteAt a (y * stride + x * 4 + c) = byteAt a' (y * stride + x * 4 + c) :=
    fun y _ x hx c hc => ha _ (fun y' _ x' hx' => rgb_ne_alpha hstride hx hx' hc)
  have kb : ∀ y, y < height → ∀ x, x < width → ∀ c, c < 3 →
      byteAt b (y * stride + x * 4 + c) = byteAt b' (y * stride + x * 4 + c) :=
    fun y _ x hx c hc => hb _ (fun y' _ x' hx' => rgb_ne_alpha hstride hx hx' hc)
  have hs := ssd_scalar_congr height ka kb
  exact ⟨hs, by rw [avx2_eq_scalar, avx2_eq_scalar, hs]⟩

/-- Witness for C4: geometry `stride = 4, width = 1, height = 1`, image A all
zero versus A with the single alpha byte (offset 3) set to 9, image B the
(10,20,30,255) pattern in both runs. -/
theorem alpha_noninterference_witness :
    ((1 : Nat) * 4 ≤ 4 ∧
      (∀ i, (∀ y, y < 1 → ∀ x, x < 1 → i ≠ y * 4 + x * 4 + 3) →
        byteAt zeroBuf i = byteAt alphaTweakBuf i) ∧
      (∀ i, (∀ y, y < 1 → ∀ x, x < 1 → i ≠ y * 4 + x * 4 + 3) →
        byteAt patBuf i = byteAt patBuf i)) ∧
    ssd_scalar zeroBuf patBuf 4 1 1 = ssd_scalar alphaTweakBuf patBuf 4 1 1 ∧
      ssd_avx2 zeroBuf patBuf 4 1 1 = ssd_avx2 alphaTweakBuf patBuf 4 1 1 := by
  have hstride : (1 : Nat) * 4 ≤ 4 := by norm_num
  have ha : ∀ i, (∀ y, y < 1 → ∀ x, x < 1 → i ≠ y * 4 + x * 4 + 3) →
      byteAt zeroBuf i = byteAt alphaTweakBuf i := by
    intro i hi
    have h3 : i ≠ 3 := by
      have := hi 0 (by norm_num) 0 (by norm_num)
      omega
    unfold byteAt zeroBuf alphaTweakBuf
    rw [if_neg h3]
  have hb : ∀ i, (∀ y, y < 1 → ∀ x, x < 1 → i ≠ y * 4 + x * 4 + 3) →
      byteAt patBuf i = byteAt patBuf i := fun i _ => rfl
  exact ⟨⟨hstride, ha, hb⟩,
    alpha_noninterference zeroBuf alphaTweakBuf patBuf patBuf 4 1 1 hstride ha hb⟩

/-- Claim C5 (code bug): on the spec scenario `width = 8, height = 1,
stride = 32`, A all zero, B all (10,20,30,255): `ssd_scalar`, `ssd_avx2`
and `ssd_avx2_simple` each return the expected 11200 = 8 × (10²+20²+30²),
but `ssd_avx2_v2` returns 89600 = 8 × 11200 because of its broadcast
accumulation bug. -/
theorem spec_scenario_8x1_values :
    ssd_scalar zeroBuf patBuf 32 8 1 = 11200 ∧
      ssd_avx2 zeroBuf patBuf 32 8 1 = 11200 ∧
      ssd_avx2_simple zeroBuf patBuf 32 8 1 = 11200 ∧
      ssd_avx2_v2 zeroBuf patBuf 32 8 1 = 89600 := by
  decide

/-- Claim C6: additivity under row tiling.  For every split `h1 + h2` of the
height, `ssd_scalar` (and `ssd_avx2`) on the first `h1` rows plus the same
kernel on the remaining `h2` rows — buffer pointers advanced by `h1*stride`
bytes — equals the kernel on the whole image. -/
theorem row_tiling_additive (a b : Nat → Nat) (stride width h1 h2 : Nat) :
    (ssd_scalar a b stride width h1
        + ssd_scalar (shiftBuf a (h1 * stride)) (shiftBuf b (h1 * stride)) stride width h2
      = ssd_scalar a b stride width (h1 + h2)) ∧
    (ssd_avx2 a b stride width h1
        + ssd_avx2 (shiftBuf a (h1 * stride)) (shiftBuf b (h1 * stride)) stride width h2
      = ssd_avx2 a b stride width (h1 + h2)) := by
  have hs := ssd_scalar_tiling a b stride width h1 h2
  refine ⟨hs, ?_⟩
  rw [avx2_eq_scalar, avx2_eq_scalar, avx2_eq_scalar]
  exact hs

/-- Claim C7: identity.  Calling any of the four kernels with both buffer
arguments equal to the same image returns exactly 0 — including
`ssd_avx2_v2`, whose (eightfold) accumulator never leaves zero. -/
theorem all_kernels_identity_zero (a : Nat → Nat) (stride width height : Nat) :
    ssd_scalar a a stride width height = 0 ∧
      ssd_avx2 a a stride width height = 0 ∧
      ssd_avx2_simple a a stride width height = 0 ∧
      ssd_avx2_v2 a a stride width height = 0 := by
  refine ⟨ssd_scalar_self a stride width height, ?_, ?_, ?_⟩
  · rw [avx2_eq_scalar]
    exact ssd_scalar_self a stride width height
  · rw [simple_eq_scalar]
    exact ssd_scalar_self a stride width height
  · unfold ssd_avx2_v2
    rw [v2Rows_self]
    ring

/-- Claim C8 (code bug): with `width = 8, height = 1` (well within the
`195075·width·height < 2^53` regime), A all zero and B all 255,
`ssd_avx2_v2` returns 12 484 800 = 8 × 1 560 600, exceeding the claimed
bound `195075 × width × height = 1 560 600`, which the scalar kernel meets
exactly; the cause is the same broadcast-accumulation bug. -/
theorem v2_exceeds_result_bound :
    ssd_avx2_v2 zeroBuf maxBuf 32 8 1 = 12484800 ∧
      ssd_scalar zeroBuf maxBuf 32 8 1 = 1560600 ∧
      (195075 * (8 * 1) : Nat) < 12484800 := by
  decide

/-- Claim C9: row-padding noninterference.  With `width*4 ≤ stride`, if the
two runs' buffers agree on every byte whose offset within its row
(`i % stride`) is below `width*4` — i.e. they may differ only in padding —
then `ssd_scalar` and `ssd_avx2` return identical values. -/
theorem padding_noninterference (a a' b b' : Nat → Nat) (stride width height : Nat)
    (hstride : width * 4 ≤ stride)
    (ha : ∀ i, i % stride < width * 4 → byteAt a i = byteAt a' i)
    (hb : ∀ i, i % stride < width * 4 → byteAt b i = byteAt b' i) :
    ssd_scalar a b stride width height = ssd_scalar a' b' stride width height ∧
      ssd_avx2 a b stride width height = ssd_avx2 a' b' stride width height := by
  have ka : ∀ y, y < height → ∀ x, x < width → ∀ c, c < 3 →
      byteAt a (y * stride + x * 4 + c) = byteAt a' (y * stride + x * 4 + c) := by
    intro y _ x hx c hc
    refine ha _ ?_
    rw [rgb_offset_mod hstride hx hc]
    omega
  have kb : ∀ y, y < height → ∀ x, x < width → ∀ c, c < 3 →
      byteAt b (y * stride + x * 4 + c) = byteAt b' (y * stride + x * 4 + c) := by
    intro y _ x hx c hc
    refine hb _ ?_
    rw [rgb_offset_mod hstride hx hc]
    omega
  have hs := ssd_scalar_congr height ka kb
  exact ⟨hs, by rw [avx2_eq_scalar, avx2_eq_scalar, hs]⟩

/-- Witness for C9: geometry `stride = 8, width = 1, height = 1`, image A all
zero versus A with padding byte 5 set to 17, image B the pattern in both
runs. -/
theorem padding_noninterference_witness :
    ((1 : Nat) * 4 ≤ 8 ∧
      (∀ i, i % 8 < 1 * 4 → byteAt zeroBuf i = byteAt padTweakBuf i) ∧
      (∀ i, i % 8 < 1 * 4 → byteAt patBuf i = byteAt patBuf i)) ∧
    ssd_scalar zeroBuf patBuf 8 1 1 = ssd_scalar padTweakBuf patBuf 8 1 1 ∧
      ssd_avx2 zeroBuf patBuf 8 1 1 = ssd_avx2 padTweakBuf patBuf 8 1 1 := by
  have hstride : (1 : Nat) * 4 ≤ 8 := by norm_num
  have ha : ∀ i, i % 8 < 1 * 4 → byteAt zeroBuf i = byteAt padTweakBuf i := by
    intro i hi
    have h5 : i ≠ 5 := by omega
    unfold byteAt zeroBuf padTweakBuf
    rw [if_neg h5]
  have hb : ∀ i, i % 8 < 1 * 4 → byteAt patBuf i = byteAt patBuf i := fun i _ => rfl
  exact ⟨⟨hstride, ha, hb⟩,
    padding_noninterference zeroBuf padTweakBuf patBuf patBuf 8 1 1 hstride ha hb⟩

/-- Claim C10: `ssd_scalar` returns 0 iff the two images agree on the R, G
and B byte of every one of the `width*height` pixels (alpha bytes are never
read, so they may differ arbitrarily). -/
theorem scalar_zero_iff_rgb_equal (a b : Nat → Nat) (stride width height : Nat) :
    ssd_scalar a b stride width height = 0 ↔
      ∀ y, y < height → ∀ x, x < width → ∀ c, c < 3 →
        byteAt a (y * stride + x * 4 + c) = byteAt b (y * stride + x * 4 + c) := by
  rw [ssd_scalar_eq_zero_iff]
  constructor
  · intro h y hy x hx c hc
    have hp := (pixRange_eq_zero_iff a b (y * stride) width).mp (h y hy) x hx
    exact (pixelSSD_eq_zero_iff a b (y * stride + x * 4)).mp hp c hc
  · intro h y hy
    exact (pixRange_eq_zero_iff a b (y * stride) width).mpr
      fun x hx => (pixelSSD_eq_zero_iff a b _).mpr fun c hc => h y hy x hx c hc

end MayFly
